import Mathlib

/-- A numeric range validator attached to a form input. Models the external
owrx RangeValidator constructed in usdr.py as RangeValidator(0, 5): it accepts
exactly the values in the closed interval from minValue to maxValue. -/
structure RangeValidator where
  minValue : Int
  maxValue : Int
deriving Repr, DecidableEq

/-- Closed-interval acceptance test of a range validator. -/
def RangeValidator.accepts (r : RangeValidator) (v : Int) : Bool :=
  r.minValue ≤ v && v ≤ r.maxValue

/-- A form input field as constructed in usdr.py via NumberInput: a key, a
display label, optional info text, an optional unit suffix rendered after the
field (the append keyword argument), and an optional numeric validator. -/
structure Input where
  key : String
  label : String
  infotext : Option String
  unitSuffix : Option String
  validator : Option RangeValidator
deriving Repr, DecidableEq

/-- A closed sample-rate interval, as constructed in usdr.py via Range(low, high). -/
structure Range where
  low : Nat
  high : Nat
deriving Repr, DecidableEq

/-- Python dict update of a single key over an insertion-ordered association
list: replace the value in place when the key is present, otherwise add the
pair at the end. -/
def dictInsert (m : List (String × String)) (k v : String) : List (String × String) :=
  if m.any (fun p => p.1 == k) then
    m.map (fun p => if p.1 == k then (k, v) else p)
  else
    m ++ [(k, v)]

/-- Python dict.update with an insertion-ordered list of key-value pairs. -/
def dictUpdate (m : List (String × String)) (kvs : List (String × String)) : List (String × String) :=
  kvs.foldl (fun acc p => dictInsert acc p.1 p.2) m

/-- UsdrSource.getDriver from usdr.py: the SoapySDR driver identifier. -/
def UsdrSource.getDriver : String := "usdr"

/-- UsdrSource.getSoapySettingsMappings from usdr.py: the mapping inherited
from the external SoapyConnectorSource base class (passed as a parameter),
updated with three identity entries. -/
def UsdrSource.getSoapySettingsMappings (base : List (String × String)) : List (String × String) :=
  dictUpdate base [("loglevel", "loglevel"), ("rx_bw", "rx_bw"), ("tx_bw", "tx_bw")]

/-- UsdrDeviceDescription.getName from usdr.py. -/
def UsdrDeviceDescription.getName : String := "USDR (Wavelet Lab Micro SDR)"

/-- The three input fields that UsdrDeviceDescription.getInputs appends after
the inherited base fields, exactly as constructed in usdr.py. -/
def UsdrDeviceDescription.addedInputs : List Input :=
  [ { key := "loglevel", label := "Log level",
      infotext := some "Set the logging verbosity level (0-5, default: 3)",
      unitSuffix := none,
      validator := some { minValue := 0, maxValue := 5 } },
    { key := "rx_bw", label := "RX Bandwidth",
      infotext := some "Set the receive bandwidth filter",
      unitSuffix := some "Hz",
      validator := none },
    { key := "tx_bw", label := "TX Bandwidth",
      infotext := some "Set the transmit bandwidth filter",
      unitSuffix := some "Hz",
      validator := none } ]

/-- UsdrDeviceDescription.getInputs from usdr.py: the field list inherited from
the external SoapyConnectorDeviceDescription base class (passed as a
parameter) followed by the three USDR fields. -/
def UsdrDeviceDescription.getInputs (base : List Input) : List Input :=
  base ++ UsdrDeviceDescription.addedInputs

/-- UsdrDeviceDescription.getDeviceOptionalKeys from usdr.py: the inherited
base optional keys (parameter) followed by the three USDR keys. -/
def UsdrDeviceDescription.getDeviceOptionalKeys (base : List String) : List String :=
  base ++ ["loglevel", "rx_bw", "tx_bw"]

/-- UsdrDeviceDescription.getProfileOptionalKeys from usdr.py: the inherited
base optional keys (parameter) followed by the two bandwidth keys. -/
def UsdrDeviceDescription.getProfileOptionalKeys (base : List String) : List String :=
  base ++ ["rx_bw", "tx_bw"]

/-- UsdrDeviceDescription.getSampleRateRanges from usdr.py: a single closed
interval, ignoring any base ranges. -/
def UsdrDeviceDescription.getSampleRateRanges : List Range :=
  [{ low := 100000, high := 65000000 }]

/-- UsdrDeviceDescription.getGainStages from usdr.py: the three LMS6002D gain
stages, ignoring any base gain stages. -/
def UsdrDeviceDescription.getGainStages : List String :=
  ["LNA", "VGA1", "VGA2"]

/-- UsdrDeviceDescription.hasAgc from usdr.py. -/
def UsdrDeviceDescription.hasAgc : Bool := false

/-- The keys of a settings mapping, in insertion order. -/
def mappingKeys (m : List (String × String)) : List String := m.map Prod.fst

/-- The keys of an input-field list, in order. -/
def inputKeys (l : List Input) : List String := l.map Input.key

/-- C1: UsdrSource.getDriver returns exactly the literal string usdr. -/
theorem usdr_getDriver_eq : UsdrSource.getDriver = "usdr" := rfl

/-- C2: the input-field list is the inherited base fields followed by exactly
three fields keyed loglevel, rx_bw, tx_bw in that order; the loglevel field is
validated against the closed integer range from 0 to 5; the rx_bw and tx_bw
fields carry the unit suffix Hz and have no numeric range restriction. -/
theorem usdr_getInputs_spec (base : List Input) :
    ∃ f1 f2 f3 : Input,
      UsdrDeviceDescription.getInputs base = base ++ [f1, f2, f3] ∧
      f1.key = "loglevel" ∧ f2.key = "rx_bw" ∧ f3.key = "tx_bw" ∧
      (∃ r, f1.validator = some r ∧ ∀ v : Int, r.accepts v = true ↔ 0 ≤ v ∧ v ≤ 5) ∧
      f2.unitSuffix = some "Hz" ∧ f2.validator = none ∧
      f3.unitSuffix = some "Hz" ∧ f3.validator = none := by
  refine ⟨_, _, _, rfl, rfl, rfl, rfl, ⟨{ minValue := 0, maxValue := 5 }, rfl, ?_⟩,
    rfl, rfl, rfl, rfl⟩
  intro v
  simp [RangeValidator.accepts]

lemma dictInsert_of_not_mem (m : List (String × String)) (k v : String)
    (h : ∀ p ∈ m, p.1 ≠ k) : dictInsert m k v = m ++ [(k, v)] := by
  have hany : m.any (fun p => p.1 == k) = false := by
    simp only [List.any_eq_false, beq_iff_eq]
    exact h
  simp [dictInsert, hany]

/-- C3: for a base mapping that does not already define the three keys, the
settings mapping is the base mapping plus exactly the three identity entries
loglevel, rx_bw and tx_bw, each mapping the internal key to the identically
named external key. -/
theorem usdr_getSoapySettingsMappings_spec (base : List (String × String))
    (h : ∀ p ∈ base, p.1 ≠ "loglevel" ∧ p.1 ≠ "rx_bw" ∧ p.1 ≠ "tx_bw") :
    UsdrSource.getSoapySettingsMappings base =
      base ++ [("loglevel", "loglevel"), ("rx_bw", "rx_bw"), ("tx_bw", "tx_bw")] := by
  have h1 : dictInsert base "loglevel" "loglevel" = base ++ [("loglevel", "loglevel")] :=
    dictInsert_of_not_mem _ _ _ (fun p hp => (h p hp).1)
  have h2 : dictInsert (base ++ [("loglevel", "loglevel")]) "rx_bw" "rx_bw" =
      base ++ [("loglevel", "loglevel")] ++ [("rx_bw", "rx_bw")] := by
    refine dictInsert_of_not_mem _ _ _ ?_
    intro p hp
    rcases List.mem_append.mp hp with hp | hp
    · exact (h p hp).2.1
    · simp only [List.mem_singleton] at hp
      subst hp
      decide
  have h3 : dictInsert (base ++ [("loglevel", "loglevel")] ++ [("rx_bw", "rx_bw")])
      "tx_bw" "tx_bw" =
      base ++ [("loglevel", "loglevel")] ++ [("rx_bw", "rx_bw")] ++ [("tx_bw", "tx_bw")] := by
    refine dictInsert_of_not_mem _ _ _ ?_
    intro p hp
    rcases List.mem_append.mp hp with hp | hp
    · rcases List.mem_append.mp hp with hp | hp
      · exact (h p hp).2.2
      · simp only [List.mem_singleton] at hp
        subst hp
        decide
    · simp only [List.mem_singleton] at hp
      subst hp
      decide
  show dictUpdate base _ = _
  simp only [dictUpdate, List.foldl_cons, List.foldl_nil]
  rw [h1, h2, h3]
  simp

/-- C3 witness: the theorem applied at the empty base mapping. -/
theorem usdr_getSoapySettingsMappings_spec_witness :
    UsdrSource.getSoapySettingsMappings [] =
      [] ++ [("loglevel", "loglevel"), ("rx_bw", "rx_bw"), ("tx_bw", "tx_bw")] :=
  usdr_getSoapySettingsMappings_spec [] (by simp)

/-- C4: for a base list not already containing the three keys, the device
optional keys are a superset of the base keys and additionally contain
loglevel, rx_bw and tx_bw, each appearing exactly once in the result. -/
theorem usdr_getDeviceOptionalKeys_spec (base : List String)
    (h : "loglevel" ∉ base ∧ "rx_bw" ∉ base ∧ "tx_bw" ∉ base) :
    (∀ k ∈ base, k ∈ UsdrDeviceDescription.getDeviceOptionalKeys base) ∧
    (UsdrDeviceDescription.getDeviceOptionalKeys base).count "loglevel" = 1 ∧
    (UsdrDeviceDescription.getDeviceOptionalKeys base).count "rx_bw" = 1 ∧
    (UsdrDeviceDescription.getDeviceOptionalKeys base).count "tx_bw" = 1 ∧
    (∀ k ∈ UsdrDeviceDescription.getDeviceOptionalKeys base,
      k ∈ base ∨ k = "loglevel" ∨ k = "rx_bw" ∨ k = "tx_bw") := by
  obtain ⟨h1, h2, h3⟩ := h
  refine ⟨?_, ?_, ?_, ?_, ?_⟩
  · intro k hk
    simp [UsdrDeviceDescription.getDeviceOptionalKeys, hk]
  · simp [UsdrDeviceDescription.getDeviceOptionalKeys, List.count_append,
      List.count_eq_zero.mpr h1]
  · simp [UsdrDeviceDescription.getDeviceOptionalKeys, List.count_append,
      List.count_eq_zero.mpr h2]
  · simp [UsdrDeviceDescription.getDeviceOptionalKeys, List.count_append,
      List.count_eq_zero.mpr h3]
  · intro k hk
    simp only [UsdrDeviceDescription.getDeviceOptionalKeys, List.mem_append,
      List.mem_cons, List.mem_singleton, List.not_mem_nil, or_false] at hk
    tauto

/-- C4 witness: the theorem applied at the empty base list. -/
theorem usdr_getDeviceOptionalKeys_spec_witness :
    (∀ k ∈ ([] : List String), k ∈ UsdrDeviceDescription.getDeviceOptionalKeys []) ∧
    (UsdrDeviceDescription.getDeviceOptionalKeys []).count "loglevel" = 1 ∧
    (UsdrDeviceDescription.getDeviceOptionalKeys []).count "rx_bw" = 1 ∧
    (UsdrDeviceDescription.getDeviceOptionalKeys []).count "tx_bw" = 1 ∧
    (∀ k ∈ UsdrDeviceDescription.getDeviceOptionalKeys [],
      k ∈ ([] : List String) ∨ k = "loglevel" ∨ k = "rx_bw" ∨ k = "tx_bw") :=
  usdr_getDeviceOptionalKeys_spec [] (by simp)

/-- C5: for a base list not containing loglevel, the profile optional keys are
exactly the base keys followed by rx_bw and tx_bw, and loglevel is absent. -/
theorem usdr_getProfileOptionalKeys_spec (base : List String)
    (h : "loglevel" ∉ base) :
    UsdrDeviceDescription.getProfileOptionalKeys base = base ++ ["rx_bw", "tx_bw"] ∧
    "loglevel" ∉ UsdrDeviceDescription.getProfileOptionalKeys base := by
  refine ⟨rfl, ?_⟩
  simp [UsdrDeviceDescription.getProfileOptionalKeys, h]

/-- C5 witness: the theorem applied at the empty base list. -/
theorem usdr_getProfileOptionalKeys_spec_witness :
    UsdrDeviceDescription.getProfileOptionalKeys [] = [] ++ ["rx_bw", "tx_bw"] ∧
    "loglevel" ∉ UsdrDeviceDescription.getProfileOptionalKeys [] :=
  usdr_getProfileOptionalKeys_spec [] (by simp)

/-- C6: the sample-rate ranges are exactly one closed interval with lower
bound 100000 and upper bound 65000000, independent of any base ranges. -/
theorem usdr_getSampleRateRanges_spec :
    UsdrDeviceDescription.getSampleRateRanges = [{ low := 100000, high := 65000000 }] := rfl

lemma mappingKeys_dictInsert (m : List (String × String)) (k0 v k : String)
    (hk : k ∈ mappingKeys (dictInsert m k0 v)) : k ∈ mappingKeys m ∨ k = k0 := by
  simp only [dictInsert, mappingKeys] at hk
  split at hk
  · simp only [List.map_map, List.mem_map, Function.comp] at hk
    obtain ⟨p, hp, hpk⟩ := hk
    by_cases hcase : p.1 == k0
    · right
      simp only [hcase, if_pos] at hpk
      exact hpk.symm
    · left
      simp only [hcase, if_neg, Bool.false_eq_true, not_false_iff] at hpk
      subst hpk
      exact List.mem_map.mpr ⟨p, hp, rfl⟩
  · simp only [List.map_append, List.mem_append, List.map_cons, List.map_nil,
      List.mem_singleton] at hk
    rcases hk with hk | hk
    · exact Or.inl (by simpa [mappingKeys] using hk)
    · exact Or.inr hk

/-- C7: if every key of the base mapping is the key of a base input field,
then every key of the settings mapping is the key of an input field; in
particular the three added mapping keys are the keys of the three added
fields. -/
theorem usdr_mapping_keys_in_inputs (baseMap : List (String × String))
    (baseInputs : List Input)
    (h : ∀ k ∈ mappingKeys baseMap, k ∈ inputKeys baseInputs) :
    ∀ k ∈ mappingKeys (UsdrSource.getSoapySettingsMappings baseMap),
      k ∈ inputKeys (UsdrDeviceDescription.getInputs baseInputs) := by
  intro k hk
  have hsub : k ∈ mappingKeys baseMap ∨ k = "loglevel" ∨ k = "rx_bw" ∨ k = "tx_bw" := by
    simp only [UsdrSource.getSoapySettingsMappings, dictUpdate, List.foldl_cons,
      List.foldl_nil] at hk
    rcases mappingKeys_dictInsert _ _ _ _ hk with hk2 | hk2
    · rcases mappingKeys_dictInsert _ _ _ _ hk2 with hk3 | hk3
      · rcases mappingKeys_dictInsert _ _ _ _ hk3 with hk4 | hk4
        · exact Or.inl hk4
        · exact Or.inr (Or.inl hk4)
      · exact Or.inr (Or.inr (Or.inl hk3))
    · exact Or.inr (Or.inr (Or.inr hk2))
  have htarget : inputKeys (UsdrDeviceDescription.getInputs baseInputs) =
      inputKeys baseInputs ++ ["loglevel", "rx_bw", "tx_bw"] := by
    simp [inputKeys, UsdrDeviceDescription.getInputs, UsdrDeviceDescription.addedInputs]
  rw [htarget]
  rcases hsub with hs | hs | hs | hs
  · exact List.mem_append.mpr (Or.inl (h k hs))
  all_goals subst hs
  all_goals simp

/-- C7 witness: the theorem applied at empty base mapping and empty base field
list, evaluated at the key loglevel. -/
theorem usdr_mapping_keys_in_inputs_witness :
    "loglevel" ∈ inputKeys (UsdrDeviceDescription.getInputs []) :=
  usdr_mapping_keys_in_inputs [] [] (by simp [mappingKeys]) "loglevel" (by decide)

/-- One of the nine metadata queries exposed by UsdrSource and
UsdrDeviceDescription. -/
inductive Query where
  | driver
  | settingsMappings
  | deviceName
  | inputs
  | deviceOptionalKeys
  | profileOptionalKeys
  | sampleRateRanges
  | gainStages
  | agc
deriving Repr, DecidableEq

/-- The observable result of a metadata query. -/
inductive QueryResult where
  | ofString : String → QueryResult
  | ofMapping : List (String × String) → QueryResult
  | ofInputs : List Input → QueryResult
  | ofKeys : List String → QueryResult
  | ofRanges : List Range → QueryResult
  | ofBool : Bool → QueryResult
deriving Repr, DecidableEq

/-- The results the external SoapyConnector base classes supply; the usdr.py
methods combine these with their own literals. -/
structure BaseEnv where
  soapySettingsMappings : List (String × String)
  inputs : List Input
  deviceOptionalKeys : List String
  profileOptionalKeys : List String
deriving Repr, DecidableEq

/-- The answer usdr.py gives to each query, given the base-class results. -/
def answerQuery (env : BaseEnv) : Query → QueryResult
  | .driver => .ofString UsdrSource.getDriver
  | .settingsMappings => .ofMapping (UsdrSource.getSoapySettingsMappings env.soapySettingsMappings)
  | .deviceName => .ofString UsdrDeviceDescription.getName
  | .inputs => .ofInputs (UsdrDeviceDescription.getInputs env.inputs)
  | .deviceOptionalKeys => .ofKeys (UsdrDeviceDescription.getDeviceOptionalKeys env.deviceOptionalKeys)
  | .profileOptionalKeys => .ofKeys (UsdrDeviceDescription.getProfileOptionalKeys env.profileOptionalKeys)
  | .sampleRateRanges => .ofRanges UsdrDeviceDescription.getSampleRateRanges
  | .gainStages => .ofKeys UsdrDeviceDescription.getGainStages
  | .agc => .ofBool UsdrDeviceDescription.hasAgc

/-- One call in a query session: the observable result paired with the call
history extended by the call just made. The methods in usdr.py read and write
no instance state, so the answer is computed from the base results alone. -/
def runQuery (env : BaseEnv) (hist : List Query) (q : Query) : QueryResult × List Query :=
  (answerQuery env q, hist ++ [q])

/-- C8: every query is deterministic and stateless: its result is the same no
matter which calls were made before, so repeated calls with no intervening
state change return identical results and no query result depends on the order
or presence of calls to any other query. -/
theorem usdr_queries_stateless (env : BaseEnv) (q : Query) (h1 h2 : List Query) :
    (runQuery env h1 q).1 = (runQuery env h2 q).1 ∧
    (runQuery env ((runQuery env h1 q).2) q).1 = (runQuery env h1 q).1 := by
  constructor <;> rfl

/-- C9: the gain stages are exactly the ordered list LNA, VGA1, VGA2. -/
theorem usdr_getGainStages_spec :
    UsdrDeviceDescription.getGainStages = ["LNA", "VGA1", "VGA2"] := rfl

/-- C10: the AGC-capability query returns the constant boolean false. -/
theorem usdr_hasAgc_spec : UsdrDeviceDescription.hasAgc = false := rfl
